import Mathlib

/-!
Verification of the SlideAgent concurrent PDF-rendering pipeline.

The definitions below are shallow embeddings of the JavaScript sources:
  - `slideagent_mcp/utils/pdf_generator.js` (scheduler, merge, dispatch,
    slide-file selection, CSS/src path rewriting),
  - `src/utils/puppeteer_helper.js` (PagePool, waitForSlideReady),
  - `src/slides/pdf_generator.js` (legacy round-robin page handout).
PDF page buffers are modelled as lists of abstract page identifiers (`Nat`);
rendering contexts (browser pages) as `Nat` identifiers.
-/

/-! ## Scheduler and merge model

`processWithConcurrency` (pdf_generator.js lines 106-119) runs one task per
slide; each task `i` writes its finished buffer into the pre-allocated slot
`pdfBuffers[i]` (`pdfBuffers = new Array(slideFiles.length)`, line 212;
`pdfBuffers[i] = pdfBuffer`, line 313).  Only the order in which tasks
*complete* (and hence write their slot) is scheduler-dependent; we model a
run by the list `order` of task indices in completion order. -/

/-- One per-slide PDF buffer: the list of pages `page.pdf()` produced for
that slide. -/
abbrev PdfBuffer := List Nat

/-- The slot-array of `generatePDFFromSlides` after the tasks listed in
`order` have completed: task `i` writes `capture i` into slot `i` of the
pre-allocated array `List.replicate n none` (source lines 212 and 313). -/
def runScheduler (n : Nat) (capture : Nat → PdfBuffer) (order : List Nat) :
    List (Option PdfBuffer) :=
  order.foldl (fun acc i => acc.set i (some (capture i))) (List.replicate n none)

/-- Model of the merge input: `PDFLib.load` on each slot in index order; fails on an unfilled slot
(the merge loop of source lines 327-331 iterates `pdfBuffers` in order). -/
def collectBuffers : List (Option PdfBuffer) → Option (List PdfBuffer)
  | [] => some []
  | none :: _ => none
  | some b :: rest => (collectBuffers rest).map (fun bs => b :: bs)

/-- The merge loop (source lines 325-331): append every page of every
buffer, taking the buffers strictly in slot order. -/
def mergePDFs (slots : List (Option PdfBuffer)) : Option (List Nat) :=
  (collectBuffers slots).map List.flatten

/-! ## Error propagation model (fail-fast, claim C4)

`generatePDFFromSlides` awaits `processWithConcurrency` inside a
`try`-block; `Promise.all` (line 118) rejects as soon as any task rejects,
the `catch` (lines 342-344) prints the error and calls `process.exit(1)`
before `fs.writeFileSync(outputPath, ...)` (line 334) is ever reached. -/

/-- Errors a render task can raise; `navTimeout` is the hard ~30s bound on
`page.setContent`/`page.goto` (`timeout: 30000`). -/
inductive RenderError
  | navTimeout
  | other
deriving DecidableEq, Repr

/-- Model of `Promise.all` over the per-slide tasks: the first task error rejects
the whole batch. -/
def awaitAllTasks (task : Nat → Except RenderError PdfBuffer) :
    List Nat → Except RenderError (List PdfBuffer)
  | [] => .ok []
  | i :: rest =>
    match task i with
    | .error e => .error e
    | .ok b =>
      match awaitAllTasks task rest with
      | .error e => .error e
      | .ok bs => .ok (b :: bs)

/-- Outcome of one `generatePDFFromSlides` run: the bytes written to the
output path (if any) and the process exit code (`some c` when the run
called `process.exit(c)` or finished). -/
structure RunOutcome where
  written : Option (List Nat)
  exitCode : Nat
deriving DecidableEq, Repr

/-- The try/catch skeleton of `generatePDFFromSlides` (lines 211-348):
run all tasks; on success merge and write, on any task failure the catch
block exits with status 1 without writing. -/
def generatePDFFromSlidesRun (n : Nat) (task : Nat → Except RenderError PdfBuffer) :
    RunOutcome :=
  match awaitAllTasks task (List.range n) with
  | .ok bufs => { written := some bufs.flatten, exitCode := 0 }
  | .error _ => { written := none, exitCode := 1 }

/-- Concrete capture function used to instantiate scheduler theorems. -/
def captureDemo : Nat → PdfBuffer := fun i => [100 + i]

/-! ## PagePool model (src/utils/puppeteer_helper.js lines 61-125)

Browser pages are identified by the order in which `browser.newPage()`
created them.  `BrowserState.openPages` is the browser-side list of pages
that are currently open; `newPage` appends a fresh identifier, and closing
a page removes it (closing an already-closed page is a no-op, matching the
`try { await page.close() } catch` in `destroy`). -/

structure BrowserState where
  nextId : Nat
  openPages : List Nat
deriving DecidableEq, Repr

/-- Model of `browser.newPage()`: returns a fresh page identifier. -/
def BrowserState.newPage (br : BrowserState) : Nat × BrowserState :=
  (br.nextId, { nextId := br.nextId + 1, openPages := br.openPages ++ [br.nextId] })

/-- Model of `page.close()` wrapped in try/catch: erase the page if it is open,
tolerate it being already closed. -/
def BrowserState.closePage (br : BrowserState) (p : Nat) : BrowserState :=
  { br with openPages := br.openPages.erase p }

/-- The `PagePool` fields: `size` is the configured capacity, `pages` the
registry filled by `init()`, `available` the free stack (`push`/`pop` at
the end, as in JS). -/
structure PagePool where
  size : Nat
  pages : List Nat
  available : List Nat
  isReady : Bool
deriving DecidableEq, Repr

/-- Model of `new PagePool(browser, size)`. -/
def PagePool.make (size : Nat) : PagePool :=
  { size := size, pages := [], available := [], isReady := false }

/-- The `for` loop of `init()`: create `k` pages, each appended to both
`this.pages` and `this.available`. -/
def createPages : Nat → PagePool → BrowserState → PagePool × BrowserState
  | 0, pool, br => (pool, br)
  | k + 1, pool, br =>
    let pb := br.newPage
    createPages k
      { pool with pages := pool.pages ++ [pb.1], available := pool.available ++ [pb.1] }
      pb.2

/-- Model of `init()` (lines 71-86, eager branch): a second call is a no-op; the
first call creates `size` pages upfront. -/
def PagePool.init (pool : PagePool) (br : BrowserState) : PagePool × BrowserState :=
  if pool.isReady then (pool, br)
  else createPages pool.size { pool with isReady := true } br

/-- Model of `acquire()` (lines 88-97): busy-waits while `available` is empty
(modelled as `none`, i.e. the caller stays blocked and the pool state is
unchanged), then `pop`s the last available page.  Call sites run `init()`
before acquiring, so the lazy `init` guard at line 89 has already fired. -/
def PagePool.acquire (pool : PagePool) : Option (Nat × PagePool) :=
  match pool.available.getLast? with
  | none => none
  | some p => some (p, { pool with available := pool.available.dropLast })

/-- Model of `release(page)` (lines 99-111): try to reset the page by navigating to
`about:blank`; if that throws (`resetOk = false`), create a brand-new page
as replacement.  Either way exactly one page is pushed onto `available`;
the replacement is *not* added to `this.pages`. -/
def PagePool.release (pool : PagePool) (page : Nat) (resetOk : Bool)
    (br : BrowserState) : PagePool × BrowserState :=
  if resetOk then
    ({ pool with available := pool.available ++ [page] }, br)
  else
    let pb := br.newPage
    ({ pool with available := pool.available ++ [pb.1] }, pb.2)

/-- Model of `destroy()` (lines 113-124): close every page in `this.pages`
(tolerating already-closed pages), then clear the pool. -/
def PagePool.destroy (pool : PagePool) (br : BrowserState) :
    PagePool × BrowserState :=
  ({ pool with pages := [], available := [], isReady := false },
    pool.pages.foldl (fun b p => b.closePage p) br)

/-! ## Pool protocol machine

A pipeline run interacts with the pool through `acquire`/`release` only;
each render task releases (exactly once, in its `finally` block) the very
page it acquired.  `held` is the list of pages currently checked out to
tasks.  `release` of a page that is not checked out, and `acquire` while
the free list is empty (the caller keeps busy-waiting), leave the state
unchanged; claim C9's raw double-release scenario is modelled separately
with the raw `PagePool.release`. -/

structure PoolSys where
  pool : PagePool
  br : BrowserState
  held : List Nat
deriving DecidableEq, Repr

inductive PoolOp
  | acquire
  | release (page : Nat) (resetOk : Bool)
deriving DecidableEq, Repr

def PoolSys.step (s : PoolSys) (op : PoolOp) : PoolSys :=
  match op with
  | .acquire =>
    match s.pool.acquire with
    | none => s
    | some pp => { s with pool := pp.2, held := s.held ++ [pp.1] }
  | .release page resetOk =>
    if page ∈ s.held then
      let pb := s.pool.release page resetOk s.br
      { pool := pb.1, br := pb.2, held := s.held.erase page }
    else s

/-- Fresh browser plus an initialized pool of capacity `cap`, as
`generatePDFFromSlides` sets them up before scheduling. -/
def PoolSys.start (cap : Nat) : PoolSys :=
  let pb := (PagePool.make cap).init { nextId := 0, openPages := [] }
  { pool := pb.1, br := pb.2, held := [] }

def PoolSys.run (cap : Nat) (ops : List PoolOp) : PoolSys :=
  ops.foldl PoolSys.step (PoolSys.start cap)

/-! Concrete traces used by the pool claims. -/

/-- C9 trace, raw interface: capacity-1 pool, acquire page 0, then release
it twice (no ownership check in `release`). -/
def doubleReleasePool : PagePool :=
  let s0 := PoolSys.start 1
  match s0.pool.acquire with
  | none => s0.pool
  | some pp =>
    let r1 := pp.2.release pp.1 true s0.br
    let r2 := r1.1.release pp.1 true r1.2
    r2.1

/-- C5 trace: capacity-1 pool; acquire page 0; release it with a failing
reset (so replacement page 1 is created); then destroy the pool.  The
final browser state shows which pages are still open. -/
def leakTraceFinal : PoolSys :=
  let s1 := (PoolSys.run 1 [.acquire, .release 0 false])
  let pb := s1.pool.destroy s1.br
  { pool := pb.1, br := pb.2, held := s1.held }

/-! ## Legacy round-robin page handout (src/slides/pdf_generator.js)

`getNextPage` (lines ~596-600) cycles `pageIndex` over a pool of
`POOL_SIZE = 4` pages while `processWithConcurrency` runs with
`CONCURRENCY_LIMIT = 8`: the scheduler loop only awaits once `executing`
holds `CONCURRENCY_LIMIT` unfinished tasks, so all of tasks `0..7` start
(and call `getNextPage`, in task order) before any completion is
required. -/

def LEGACY_POOL_SIZE : Nat := 4

def LEGACY_CONCURRENCY_LIMIT : Nat := 8

/-- Value of `pageIndex` immediately before the `i`-th `getNextPage` call
(`pageIndex = (pageIndex + 1) % POOL_SIZE` after each call); the call
returns `pages[pageIndex]`, so this is also the pool slot handed to the
`i`-th task. -/
def legacyPageForTask : Nat → Nat
  | 0 => 0
  | i + 1 => (legacyPageForTask i + 1) % LEGACY_POOL_SIZE

/-- Tasks `i` and `j` can be in flight simultaneously under
`processWithConcurrency`: the loop at lines 528-531 first awaits after
`CONCURRENCY_LIMIT` tasks have been started, so any two distinct tasks
with index below the limit run concurrently when none completes early. -/
def legacyCanOverlap (i j : Nat) : Prop :=
  i ≠ j ∧ i < LEGACY_CONCURRENCY_LIMIT ∧ j < LEGACY_CONCURRENCY_LIMIT

instance (i j : Nat) : Decidable (legacyCanOverlap i j) := by
  unfold legacyCanOverlap; infer_instance

/-- The mcp pipeline constants: `new PagePool(browser, 8)` at line 198 and
`CONCURRENCY_LIMIT = 8` at line 216 of slideagent_mcp pdf_generator.js. -/
def MCP_POOL_SIZE : Nat := 8

def MCP_CONCURRENCY_LIMIT : Nat := 8

/-- Invariant of the pool protocol machine: the checked-out pages plus the
free list always account for exactly the configured capacity, no page
appears twice across the two (exclusivity), every pool-side identifier was
created by the browser, and the browser's open-page list has no
duplicates. -/
structure PoolInv (cap : Nat) (s : PoolSys) : Prop where
  countHA : (s.held ++ s.pool.available).length = cap
  nodupHA : (s.held ++ s.pool.available).Nodup
  boundHA : ∀ x ∈ s.held ++ s.pool.available, x < s.br.nextId
  nodupOpen : s.br.openPages.Nodup
  boundOpen : ∀ x ∈ s.br.openPages, x < s.br.nextId

/-! ## Slide file selection (pdf_generator.js lines 173-179)

`fs.readdirSync(slidesDir).filter(file => file.match(/^slide_\\d+\\.html$/))`
followed by `.sort((a, b) => parseInt(a.match(/\\d+/)[0]) -
parseInt(b.match(/\\d+/)[0]))`.  JS `Array.prototype.sort` is stable, so it
is modelled by a stable insertion sort on the numeric key. -/

/-- Longest leading run of ASCII digits. -/
def takeDigits : List Char → List Char
  | [] => []
  | c :: cs => if c.isDigit then c :: takeDigits cs else []

/-- What remains after the leading digit run. -/
def dropDigits : List Char → List Char
  | [] => []
  | c :: cs => if c.isDigit then dropDigits cs else c :: cs

/-- The regex test `^slide_\\d+\\.html$`. -/
def matchesSlidePattern (s : String) : Bool :=
  match s.toList with
  | 's' :: 'l' :: 'i' :: 'd' :: 'e' :: '_' :: rest =>
    !(takeDigits rest).isEmpty && (dropDigits rest == ['.', 'h', 't', 'm', 'l'])
  | _ => false

/-- The first maximal digit run anywhere in the string — the text matched
by `/\\d+/`, whose `parseInt` is the sort key. -/
def firstDigitRun : List Char → List Char
  | [] => []
  | c :: cs => if c.isDigit then c :: takeDigits cs else firstDigitRun cs

/-- Decimal value of a digit string (`parseInt` on a pure digit run). -/
def digitsToNat (ds : List Char) : Nat :=
  ds.foldl (fun n c => n * 10 + (c.toNat - '0'.toNat)) 0

/-- Model of `parseInt(name.match(/\\d+/)[0])`. -/
def slideKey (s : String) : Nat := digitsToNat (firstDigitRun s.toList)

/-- The comparator `(a, b) => numA - numB`: ascending numeric key. -/
def slideKeyLe (a b : String) : Prop := slideKey a ≤ slideKey b

instance : DecidableRel slideKeyLe := fun a b => Nat.decLe (slideKey a) (slideKey b)

instance : IsTotal String slideKeyLe := ⟨fun a b => Nat.le_total (slideKey a) (slideKey b)⟩

instance : IsTrans String slideKeyLe := ⟨fun _ _ _ => Nat.le_trans⟩

/-- The filter-then-sort pipeline that picks the slide files of a
directory listing. -/
def selectSlideFiles (files : List String) : List String :=
  (files.filter matchesSlidePattern).insertionSort slideKeyLe

/-! ## Readiness probe (src/utils/puppeteer_helper.js lines 127-167) -/

/-- Hard navigation timeout of `page.goto` (30000 ms): fatal. -/
inductive NavError
  | hardTimeout
deriving DecidableEq, Repr

/-- A snapshot of the browser-side predicate inputs polled by
`page.waitForFunction`. -/
structure DocSnapshot where
  readyStateComplete : Bool
  imagesComplete : List Bool
  fontsLoading : Bool
  hasSlideContainer : Bool
  hasBody : Bool
deriving DecidableEq, Repr

/-- The function body passed to `waitForFunction` (lines 136-159):
document load complete, every `img` complete, fonts not loading, and a
slide container — or, failing that, the body — present. -/
def slideReadyCheck (d : DocSnapshot) : Bool :=
  if !d.readyStateComplete then false
  else if !(d.imagesComplete.all (fun b => b)) then false
  else if d.fontsLoading then false
  else if !d.hasSlideContainer then d.hasBody
  else true

/-- Soft timeout of the readiness probe (`timeout: 5000`). -/
def SOFT_TIMEOUT_MS : Nat := 5000

/-- Fixed settle delay after the probe (`setTimeout(resolve, 100)`). -/
def SETTLE_DELAY_MS : Nat := 100

/-- Model of `waitForFunction`: it polls the predicate over time; it succeeds exactly
when some poll instant within the soft timeout satisfies it. -/
def probeSucceeds (doc : Nat → DocSnapshot) : Bool :=
  (List.range (SOFT_TIMEOUT_MS + 1)).any (fun t => slideReadyCheck (doc t))

/-- What `waitForSlideReady` did before returning. -/
structure ReadyOutcome where
  warnedTimeout : Bool
  settleDelayMs : Nat
deriving DecidableEq, Repr

/-- Model of `waitForSlideReady(page, slideUrl)` (lines 127-167): the initial
`page.goto` may throw the hard timeout (not caught here); the
`waitForFunction` is wrapped in try/catch, so its timeout only logs a
warning; the 100 ms settle delay runs on both paths. -/
def waitForSlideReady (nav : Except NavError Unit) (doc : Nat → DocSnapshot) :
    Except NavError ReadyOutcome :=
  match nav with
  | .error e => .error e
  | .ok _ =>
    if probeSucceeds doc then
      .ok { warnedTimeout := false, settleDelayMs := SETTLE_DELAY_MS }
    else
      .ok { warnedTimeout := true, settleDelayMs := SETTLE_DELAY_MS }

/-- Modelled from the claim's description of the readiness condition:
"document load complete, all images complete, fonts not loading, slide
container or body present". -/
def readyConditionSpec (d : DocSnapshot) : Prop :=
  d.readyStateComplete = true ∧ (∀ b ∈ d.imagesComplete, b = true) ∧
    d.fontsLoading = false ∧ (d.hasSlideContainer = true ∨ d.hasBody = true)

/-! ## Dispatch between directory and single-file mode
(slideagent_mcp/utils/pdf_generator.js lines 160-168 and 352-356) -/

/-- What a path names on the filesystem. -/
inductive FSEntry
  | file
  | dir
deriving DecidableEq, Repr

/-- The filesystem as seen through `fs.existsSync`/`fs.lstatSync`. -/
def FileSystem := String → Option FSEntry

/-- Model of `fs.existsSync(p)`. -/
def existsSync (fsys : FileSystem) (p : String) : Bool := (fsys p).isSome

/-- Model of `fs.lstatSync(p).isDirectory()` guarded by existence. -/
def isDirEntry (fsys : FileSystem) (p : String) : Bool :=
  match fsys p with
  | some .dir => true
  | _ => false

/-- Which branch `generatePDF` takes. -/
inductive GenBranch
  | directoryMode
  | singleFileMode
deriving DecidableEq, Repr

/-- Observable outcome of the dispatch: the branch taken, whether the
"HTML file not found" error was printed, the exit code when
`process.exit` fired, and whether `launchBrowser()` was reached. -/
structure GenOutcome where
  branch : GenBranch
  errorNotFound : Bool
  exitCode : Option Nat
  browserLaunched : Bool
deriving DecidableEq, Repr

/-- Model of `generatePDFFromSingleFile` (lines 352-356): the existence check and
`process.exit(1)` come before `launchBrowser()`; the rest of the function
(the actual render) is abstracted as a successful launch. -/
def generatePDFFromSingleFile (fsys : FileSystem) (htmlFilePath : String) :
    GenOutcome :=
  if !(existsSync fsys htmlFilePath) then
    { branch := .singleFileMode, errorNotFound := true,
      exitCode := some 1, browserLaunched := false }
  else
    { branch := .singleFileMode, errorNotFound := false,
      exitCode := none, browserLaunched := true }

/-- Model of `generatePDF` (lines 160-168): `isDirectory = fs.existsSync(input) &&
fs.lstatSync(input).isDirectory()`; the directory pipeline (abstracted)
is entered only then, otherwise the legacy single-file branch runs. -/
def generatePDF (fsys : FileSystem) (input : String) : GenOutcome :=
  if existsSync fsys input && isDirEntry fsys input then
    { branch := .directoryMode, errorNotFound := false,
      exitCode := none, browserLaunched := true }
  else
    generatePDFFromSingleFile fsys input

/-- Concrete empty filesystem for the C10 witness. -/
def emptyFS : FileSystem := fun _ => none

/-! ## Presentation-normalizer path rewriting
(slideagent_mcp/utils/pdf_generator.js lines 245-253 and 278-286)

The CSS replacer fires once per `url(...)` reference of an inlined
stylesheet (quotes around the capture are optional; the captured
reference contains no quote or closing-paren characters), the src
replacer once per double-quoted `src` attribute of the document.  Each
replacer receives the full matched text and the captured reference and
returns the replacement text.  JS `String.prototype.startsWith` is
modelled as a character-prefix test, and `path.resolve` on character
lists (both byte-level in Node; the documents are text). -/

/-- Character-list prefix test. -/
def charsStart : List Char → List Char → Bool
  | [], _ => true
  | _ :: _, [] => false
  | c :: cs, d :: ds => (c == d) && charsStart cs ds

/-- JS `s.startsWith(p)`. -/
def strStarts (s p : String) : Bool := charsStart p.toList s.toList

/-- The single-quote character written around the rewritten url. -/
def squote : String := String.singleton (Char.ofNat 39)

/-- The double-quote character delimiting `src` attributes. -/
def dquote : String := String.singleton (Char.ofNat 34)

/-- Split a character list at every slash. -/
def splitSlash : List Char → List (List Char)
  | [] => [[]]
  | c :: cs =>
    if c = '/' then [] :: splitSlash cs
    else
      match splitSlash cs with
      | [] => [[c]]
      | seg :: rest => (c :: seg) :: rest

/-- Resolve `.`, `..` and empty segments; the accumulator holds the
resolved segments in reverse.  The base directory is absolute, so `..`
at the root stays at the root, as in Node. -/
def normalizeSegs : List (List Char) → List (List Char) → List (List Char)
  | acc, [] => acc.reverse
  | acc, seg :: rest =>
    if seg = [] ∨ seg = ['.'] then normalizeSegs acc rest
    else if seg = ['.', '.'] then
      match acc with
      | [] => normalizeSegs [] rest
      | _ :: acc2 => normalizeSegs acc2 rest
    else normalizeSegs (seg :: acc) rest

/-- Rebuild a path from segments. -/
def joinSlash : List (List Char) → List Char
  | [] => []
  | [seg] => seg
  | seg :: rest => seg ++ '/' :: joinSlash rest

/-- Model of `path.resolve(dir, p)` for an absolute `dir`: an absolute `p` wins
outright, otherwise `p` is joined onto `dir`, and dot segments are
normalized.  (Resolution against the process working directory — used by
Node only when `dir` itself is relative — is outside the model.) -/
def pathResolve (dir p : String) : String :=
  let segs := if strStarts p "/" then splitSlash p.toList
              else splitSlash dir.toList ++ splitSlash p.toList
  String.mk ('/' :: joinSlash (normalizeSegs [] segs))

/-- The skip test, identical at both replacer sites (lines 247 and 280):
a plain prefix check for `data:`, `http` and `file:`. -/
def skipRef (url : String) : Bool :=
  strStarts url "data:" || strStarts url "http" || strStarts url "file:"

/-- The CSS url replacer (lines 245-253); `cssDir` is the directory of
the stylesheet being inlined. -/
def rewriteCssUrl (cssDir matchText url : String) : String :=
  if skipRef url then matchText
  else "url(" ++ squote ++ "file://" ++ pathResolve cssDir url ++ squote ++ ")"

/-- The src replacer (lines 278-286); `docDir` is the directory of the
slide document. -/
def rewriteSrc (docDir matchText src : String) : String :=
  if skipRef src then matchText
  else "src=" ++ dquote ++ "file://" ++ pathResolve docDir src ++ dquote

/-- Full matched text of an unquoted CSS reference. -/
def cssMatch (url : String) : String := "url(" ++ url ++ ")"

/-- Full matched text of a `src` attribute. -/
def srcMatch (src : String) : String := "src=" ++ dquote ++ src ++ dquote

/-- Modelled from the claim wording: the reference "begins with a data:
payload or an already-absolute scheme (http/file)". -/
def isAbsoluteOrDataRef (url : String) : Bool :=
  strStarts url "data:" || strStarts url "http:" || strStarts url "https:" ||
    strStarts url "file:"

/-- Concrete task family for the C4 witness: slide 1 hits the hard
navigation timeout, the others render one page each. -/
def taskDemo : Nat → Except RenderError PdfBuffer :=
  fun i => if i = 1 then .error .navTimeout else .ok [200 + i]

/-! ## Lemmas about the scheduler slots -/

theorem foldl_set_length (capture : Nat → PdfBuffer) :
    ∀ (order : List Nat) (init : List (Option PdfBuffer)),
      (order.foldl (fun acc i => acc.set i (some (capture i))) init).length =
        init.length := by
  intro order
  induction order with
  | nil => intro init; rfl
  | cons a rest ih =>
    intro init
    simpa [List.foldl_cons, List.length_set] using ih (init.set a (some (capture a)))

theorem foldl_set_get_of_not_mem (capture : Nat → PdfBuffer) :
    ∀ (order : List Nat) (init : List (Option PdfBuffer)) (j : Nat),
      j ∉ order →
      (order.foldl (fun acc i => acc.set i (some (capture i))) init)[j]? =
        init[j]? := by
  intro order
  induction order with
  | nil => intro init j _; rfl
  | cons a rest ih =>
    intro init j hj
    have hja : j ≠ a := fun h => hj (h ▸ List.mem_cons_self a rest)
    have hjr : j ∉ rest := fun h => hj (List.mem_cons_of_mem a h)
    rw [List.foldl_cons, ih _ j hjr, List.getElem?_set_ne (fun h => hja h.symm)]

theorem foldl_set_get_of_mem (capture : Nat → PdfBuffer) :
    ∀ (order : List Nat) (init : List (Option PdfBuffer)) (j : Nat),
      (∀ i ∈ order, i < init.length) → j ∈ order →
      (order.foldl (fun acc i => acc.set i (some (capture i))) init)[j]? =
        some (some (capture j)) := by
  intro order
  induction order with
  | nil => intro _ _ _ h; cases h
  | cons a rest ih =>
    intro init j hbound hj
    rw [List.foldl_cons]
    by_cases hjr : j ∈ rest
    · exact ih _ j (fun i hi => by
        simpa [List.length_set] using hbound i (List.mem_cons_of_mem a hi)) hjr
    · have hja : j = a := by
        rcases List.mem_cons.mp hj with h | h
        · exact h
        · exact absurd h hjr
      subst hja
      rw [foldl_set_get_of_not_mem capture rest _ j hjr]
      have hlt : j < init.length := hbound j (List.mem_cons_self j rest)
      simp [List.getElem?_set_self, hlt]

theorem runScheduler_eq_map (n : Nat) (capture : Nat → PdfBuffer)
    (order : List Nat)
    (hcover : ∀ i, i < n → i ∈ order) (hbound : ∀ i ∈ order, i < n) :
    runScheduler n capture order = (List.range n).map (fun i => some (capture i)) := by
  apply List.ext_getElem?
  intro j
  by_cases hj : j < n
  · rw [runScheduler,
      foldl_set_get_of_mem capture order _ j
        (by simpa [List.length_replicate] using hbound) (hcover j hj)]
    simp [List.getElem?_map, List.getElem?_range hj]
  · have h1 : (runScheduler n capture order).length ≤ j := by
      rw [runScheduler, foldl_set_length, List.length_replicate]
      omega
    have h2 : ((List.range n).map (fun i => some (capture i))).length ≤ j := by
      simp; omega
    rw [List.getElem?_eq_none h1, List.getElem?_eq_none h2]

theorem collectBuffers_map_some (capture : Nat → PdfBuffer) :
    ∀ l : List Nat,
      collectBuffers (l.map (fun i => some (capture i))) = some (l.map capture) := by
  intro l
  induction l with
  | nil => rfl
  | cons a rest ih => simp [collectBuffers, ih]

theorem length_bind_of_forall_one (capture : Nat → PdfBuffer) :
    ∀ l : List Nat, (∀ i ∈ l, (capture i).length = 1) →
      (l.flatMap capture).length = l.length := by
  intro l
  induction l with
  | nil => intro _; rfl
  | cons a rest ih =>
    intro h
    have ha := h a (List.mem_cons_self a rest)
    have hr := ih (fun i hi => h i (List.mem_cons_of_mem a hi))
    rw [List.flatMap_cons, List.length_append, ha, hr, List.length_cons]
    omega

/-- Claim C1: for every directory input with `n` matched slide files and
every completion interleaving `order` of the concurrent render tasks
(every task index below `n` completes, and only those), the merged
composite PDF is exactly the concatenation of the per-slide buffers in
ascending slide-index order, and — as each buffer holds one page per
document — it has exactly `n` pages: each task writes its buffer only into
the pre-allocated slot at its original index, and the merge appends
buffers strictly in index order. -/
theorem c1_merge_order_and_page_count (n : Nat) (capture : Nat → PdfBuffer)
    (order : List Nat)
    (hcover : ∀ i, i < n → i ∈ order) (hbound : ∀ i ∈ order, i < n)
    (hone : ∀ i, i < n → (capture i).length = 1) :
    mergePDFs (runScheduler n capture order) = some ((List.range n).flatMap capture) ∧
      ((List.range n).flatMap capture).length = n := by
  constructor
  · rw [mergePDFs, runScheduler_eq_map n capture order hcover hbound,
      collectBuffers_map_some capture]
    simp [List.flatMap_def]
  · rw [length_bind_of_forall_one capture _
      (fun i hi => hone i (List.mem_range.mp hi))]
    exact List.length_range n

/-- Witness for C1: three slides completing in the order 2, 0, 1 still
merge to the pages of slides 0, 1, 2 in index order, three pages total. -/
theorem c1_witness :
    mergePDFs (runScheduler 3 captureDemo [2, 0, 1]) = some [100, 101, 102] ∧
      (100 + 0 + 1 = 101) := by
  have h := c1_merge_order_and_page_count 3 captureDemo [2, 0, 1]
    (by decide) (by decide) (by decide)
  refine ⟨?_, by decide⟩
  rw [h.1]
  decide

theorem awaitAllTasks_error_of_mem (task : Nat → Except RenderError PdfBuffer) :
    ∀ (l : List Nat) (i : Nat) (e : RenderError), i ∈ l → task i = .error e →
      ∃ e', awaitAllTasks task l = .error e' := by
  intro l
  induction l with
  | nil => intro i e h; cases h
  | cons a rest ih =>
    intro i e hmem hfail
    rcases List.mem_cons.mp hmem with h | h
    · subst h
      exact ⟨e, by simp [awaitAllTasks, hfail]⟩
    · rcases ih i e h hfail with ⟨e', he'⟩
      cases hta : task a with
      | error ea => exact ⟨ea, by simp [awaitAllTasks, hta]⟩
      | ok b => exact ⟨e', by simp [awaitAllTasks, hta, he']⟩

/-- Claim C4: if any single render task fails with the hard ~30s
navigation/content-set timeout, the whole run aborts: the catch block of
`generatePDFFromSlides` exits with a non-zero status before the composite
PDF is ever written to the output path. -/
theorem c4_hard_timeout_aborts_run (n : Nat)
    (task : Nat → Except RenderError PdfBuffer) (i : Nat)
    (hi : i < n) (hfail : task i = .error .navTimeout) :
    (generatePDFFromSlidesRun n task).written = none ∧
      (generatePDFFromSlidesRun n task).exitCode ≠ 0 := by
  rcases awaitAllTasks_error_of_mem task (List.range n) i RenderError.navTimeout
    (List.mem_range.mpr hi) hfail with ⟨e', he'⟩
  rw [generatePDFFromSlidesRun, he']
  exact ⟨rfl, Nat.one_ne_zero⟩

/-- Witness for C4: with three slides of which slide 1 times out, nothing
is written and the exit code is non-zero. -/
theorem c4_witness :
    (generatePDFFromSlidesRun 3 taskDemo).written = none ∧
      (generatePDFFromSlidesRun 3 taskDemo).exitCode ≠ 0 :=
  c4_hard_timeout_aborts_run 3 taskDemo 1 (by decide) (by rfl)

/-! ## Pool lemmas -/

theorem createPages_spec :
    ∀ (k : Nat) (pool : PagePool) (br : BrowserState),
      createPages k pool br =
        ({ pool with pages := pool.pages ++ List.range' br.nextId k,
                     available := pool.available ++ List.range' br.nextId k },
          { nextId := br.nextId + k,
            openPages := br.openPages ++ List.range' br.nextId k }) := by
  intro k
  induction k with
  | zero =>
    intro pool br
    simp [createPages]
  | succ k ih =>
    intro pool br
    rw [createPages, ih]
    simp only [BrowserState.newPage, List.range'_succ, Prod.mk.injEq,
      PagePool.mk.injEq, BrowserState.mk.injEq, List.append_assoc,
      List.singleton_append, true_and, and_true]
    omega

theorem poolSysStart_eq (cap : Nat) :
    PoolSys.start cap =
      { pool := { size := cap, pages := List.range' 0 cap,
                  available := List.range' 0 cap, isReady := true },
        br := { nextId := cap, openPages := List.range' 0 cap },
        held := [] } := by
  rw [PoolSys.start, PagePool.make, PagePool.init]
  simp [createPages_spec]

theorem poolInv_start (cap : Nat) : PoolInv cap (PoolSys.start cap) := by
  rw [poolSysStart_eq]
  constructor
  · show ([] ++ List.range' 0 cap).length = cap
    simp [List.length_range']
  · show ([] ++ List.range' 0 cap).Nodup
    simpa using List.nodup_range' 0 cap 1 Nat.one_pos
  · show ∀ x ∈ [] ++ List.range' 0 cap, x < cap
    intro x hx
    simp only [List.nil_append] at hx
    have h2 := List.mem_range'_1.mp hx
    omega
  · show (List.range' 0 cap).Nodup
    exact List.nodup_range' 0 cap 1 Nat.one_pos
  · show ∀ x ∈ List.range' 0 cap, x < cap
    intro x hx
    have h2 := List.mem_range'_1.mp hx
    omega


theorem release_eq_true (pool : PagePool) (page : Nat) (br : BrowserState) :
    pool.release page true br =
      ({ pool with available := pool.available ++ [page] }, br) := rfl

theorem release_eq_false (pool : PagePool) (page : Nat) (br : BrowserState) :
    pool.release page false br =
      ({ pool with available := pool.available ++ [br.nextId] },
        { nextId := br.nextId + 1, openPages := br.openPages ++ [br.nextId] }) := rfl

theorem step_acquire_some (s : PoolSys) (p : Nat)
    (hg : s.pool.available.getLast? = some p) :
    s.step .acquire =
      { pool := { s.pool with available := s.pool.available.dropLast },
        br := s.br, held := s.held ++ [p] } := by
  rw [PoolSys.step]
  simp [PagePool.acquire, hg]

theorem step_release_mem (s : PoolSys) (page : Nat) (resetOk : Bool)
    (hmem : page ∈ s.held) :
    s.step (.release page resetOk) =
      { pool := (s.pool.release page resetOk s.br).1,
        br := (s.pool.release page resetOk s.br).2,
        held := s.held.erase page } := by
  rw [PoolSys.step]
  simp [hmem]

theorem poolInv_step (cap : Nat) (s : PoolSys) (op : PoolOp)
    (h : PoolInv cap s) : PoolInv cap (s.step op) := by
  cases op with
  | acquire =>
    cases hg : s.pool.available.getLast? with
    | none =>
      have hstep : s.step .acquire = s := by
        rw [PoolSys.step]
        simp [PagePool.acquire, hg]
      rw [hstep]
      exact h
    | some p =>
      rw [step_acquire_some s p hg]
      have havail : s.pool.available.dropLast ++ [p] = s.pool.available :=
        List.dropLast_append_getLast? p hg
      have hperm : List.Perm ((s.held ++ [p]) ++ s.pool.available.dropLast)
          (s.held ++ s.pool.available) := by
        rw [List.append_assoc]
        have h3 := List.Perm.append_left s.held
          (@List.perm_append_comm _ [p] s.pool.available.dropLast)
        rwa [havail] at h3
      constructor
      · show ((s.held ++ [p]) ++ s.pool.available.dropLast).length = cap
        rw [hperm.length_eq]
        exact h.countHA
      · show ((s.held ++ [p]) ++ s.pool.available.dropLast).Nodup
        exact hperm.nodup_iff.mpr h.nodupHA
      · show ∀ x ∈ (s.held ++ [p]) ++ s.pool.available.dropLast, x < s.br.nextId
        intro x hx
        exact h.boundHA x (hperm.mem_iff.mp hx)
      · exact h.nodupOpen
      · exact h.boundOpen
  | release page resetOk =>
    by_cases hmem : page ∈ s.held
    · rw [step_release_mem s page resetOk hmem]
      have hpermheld : List.Perm s.held (page :: s.held.erase page) :=
        List.perm_cons_erase hmem
      cases resetOk with
      | true =>
        rw [release_eq_true]
        have hperm : List.Perm (s.held.erase page ++ (s.pool.available ++ [page]))
            (s.held ++ s.pool.available) := by
          rw [← List.append_assoc]
          refine List.Perm.trans List.perm_append_comm ?_
          have h2 : [page] ++ (s.held.erase page ++ s.pool.available)
              = (page :: s.held.erase page) ++ s.pool.available := by simp
          rw [h2]
          exact List.Perm.append_right s.pool.available hpermheld.symm
        constructor
        · show (s.held.erase page ++ (s.pool.available ++ [page])).length = cap
          rw [hperm.length_eq]
          exact h.countHA
        · show (s.held.erase page ++ (s.pool.available ++ [page])).Nodup
          exact hperm.nodup_iff.mpr h.nodupHA
        · show ∀ x ∈ s.held.erase page ++ (s.pool.available ++ [page]),
            x < s.br.nextId
          intro x hx
          exact h.boundHA x (hperm.mem_iff.mp hx)
        · exact h.nodupOpen
        · exact h.boundOpen
      | false =>
        rw [release_eq_false]
        have hsub : List.Sublist (s.held.erase page ++ s.pool.available)
            (s.held ++ s.pool.available) :=
          List.Sublist.append_right (List.erase_sublist page s.held)
            s.pool.available
        have hb : ∀ x ∈ s.held.erase page ++ s.pool.available, x < s.br.nextId :=
          fun x hx => h.boundHA x (hsub.mem hx)
        constructor
        · show (s.held.erase page ++ (s.pool.available ++ [s.br.nextId])).length = cap
          have h1 : (s.held.erase page).length = s.held.length - 1 :=
            List.length_erase_of_mem hmem
          have h2 : 0 < s.held.length :=
            List.length_pos.mpr (List.ne_nil_of_mem hmem)
          have h3 := h.countHA
          rw [List.length_append] at h3
          simp only [List.length_append, List.length_singleton, h1]
          omega
        · show (s.held.erase page ++ (s.pool.available ++ [s.br.nextId])).Nodup
          rw [← List.append_assoc, List.nodup_append]
          refine ⟨h.nodupHA.sublist hsub, List.nodup_singleton _, ?_⟩
          intro x hx hx1
          rw [List.mem_singleton] at hx1
          subst hx1
          exact absurd (hb _ hx) (lt_irrefl _)
        · show ∀ x ∈ s.held.erase page ++ (s.pool.available ++ [s.br.nextId]),
            x < s.br.nextId + 1
          intro x hx
          rw [← List.append_assoc, List.mem_append, List.mem_singleton] at hx
          cases hx with
          | inl hx => exact Nat.lt_succ_of_lt (hb x hx)
          | inr hx => omega
        · show (s.br.openPages ++ [s.br.nextId]).Nodup
          rw [List.nodup_append]
          refine ⟨h.nodupOpen, List.nodup_singleton _, ?_⟩
          intro x hx hx1
          rw [List.mem_singleton] at hx1
          subst hx1
          exact absurd (h.boundOpen _ hx) (lt_irrefl _)
        · show ∀ x ∈ s.br.openPages ++ [s.br.nextId], x < s.br.nextId + 1
          intro x hx
          rw [List.mem_append, List.mem_singleton] at hx
          cases hx with
          | inl hx => exact Nat.lt_succ_of_lt (h.boundOpen x hx)
          | inr hx => omega
    · have hstep : s.step (.release page resetOk) = s := by
        rw [PoolSys.step]
        simp [hmem]
      rw [hstep]
      exact h

theorem poolInv_run (cap : Nat) (ops : List PoolOp) :
    PoolInv cap (PoolSys.run cap ops) := by
  rw [PoolSys.run]
  have haux : ∀ (l : List PoolOp) (s : PoolSys), PoolInv cap s →
      PoolInv cap (l.foldl PoolSys.step s) := by
    intro l
    induction l with
    | nil => intro s hs; exact hs
    | cons op rest ih =>
      intro s hs
      exact ih _ (poolInv_step cap s op hs)
  exact haux ops _ (poolInv_start cap)

/-- Claim C2: for the page pool with configured capacity `cap`, after every
protocol sequence of init/acquire/release operations — including releases
whose reset fails so that a freshly created replacement is pushed — the
invariant `available.size + inUse = cap` holds at every observation point
(every prefix of a run is itself a run), and never more than `cap`
contexts are checked out simultaneously. -/
theorem c2_capacity_invariant (cap : Nat) (ops : List PoolOp) :
    (PoolSys.run cap ops).pool.available.length + (PoolSys.run cap ops).held.length = cap ∧
      (PoolSys.run cap ops).held.length ≤ cap := by
  have h := (poolInv_run cap ops).countHA
  rw [List.length_append] at h
  exact ⟨by omega, by omega⟩

theorem foldl_closePage_openPages :
    ∀ (ps : List Nat) (br : BrowserState),
      (ps.foldl (fun b p => b.closePage p) br).openPages =
        ps.foldl (fun l q => l.erase q) br.openPages := by
  intro ps
  induction ps with
  | nil => intro br; rfl
  | cons a rest ih =>
    intro br
    rw [List.foldl_cons, List.foldl_cons, ih]
    rfl

theorem not_mem_foldl_erase (p : Nat) :
    ∀ (ps l : List Nat), p ∉ l → p ∉ ps.foldl (fun acc q => acc.erase q) l := by
  intro ps
  induction ps with
  | nil => intro l h; exact h
  | cons a rest ih =>
    intro l h
    rw [List.foldl_cons]
    exact ih _ (fun hx => h (List.mem_of_mem_erase hx))

theorem mem_erased_after_foldl (p : Nat) :
    ∀ (ps l : List Nat), l.Nodup → p ∈ ps →
      p ∉ ps.foldl (fun acc q => acc.erase q) l := by
  intro ps
  induction ps with
  | nil => intro l _ h; cases h
  | cons a rest ih =>
    intro l hnd hp
    rw [List.foldl_cons]
    by_cases hpa : p = a
    · subst hpa
      apply not_mem_foldl_erase
      intro hm
      exact ((hnd.mem_erase_iff).mp hm).1 rfl
    · exact ih _ (hnd.erase a) ((List.mem_cons.mp hp).resolve_left hpa)

/-- Claim C3 (amended): in the PagePool-based pipeline each rendering
context is held by at most one render task at a time — across every
protocol run, no page identifier ever appears twice among the checked-out
pages and the free list, so two in-flight tasks never share a context —
and there the effective concurrency limit (8) does not exceed the pool
capacity (8).  (The claim as stated fails for the legacy round-robin
pipeline; see its counterexample.) -/
theorem c3_pagepool_exclusive (cap : Nat) (ops : List PoolOp) :
    ((PoolSys.run cap ops).held ++ (PoolSys.run cap ops).pool.available).Nodup ∧
      MCP_CONCURRENCY_LIMIT ≤ MCP_POOL_SIZE :=
  ⟨(poolInv_run cap ops).nodupHA, by decide⟩

/-- Counterexample for C3 as stated: in the legacy slides pipeline the
concurrency limit 8 exceeds the pool size 4, and the distinct tasks 0 and
4 — which can be in flight simultaneously — are handed the very same
rendering context by the round-robin `getNextPage`. -/
theorem c3_counterexample :
    legacyCanOverlap 0 4 ∧ legacyPageForTask 0 = legacyPageForTask 4 ∧
      LEGACY_POOL_SIZE < LEGACY_CONCURRENCY_LIMIT := by decide

/-- Claim C5 (amended): after any protocol sequence of acquire/release
operations, `destroy()` closes every context in the pool's `pages`
registry (the contexts created by `init()`), tolerating already-closed
ones; replacement contexts created on a failed reset are pushed to
`available` but never registered in `pages`, so `destroy()` does not
close them. -/
theorem c5_destroy_closes_registered (cap : Nat) (ops : List PoolOp) (p : Nat)
    (hp : p ∈ (PoolSys.run cap ops).pool.pages) :
    p ∉ ((PoolSys.run cap ops).pool.destroy (PoolSys.run cap ops).br).2.openPages := by
  have hnd := (poolInv_run cap ops).nodupOpen
  show p ∉ ((PoolSys.run cap ops).pool.pages.foldl (fun b q => b.closePage q)
    (PoolSys.run cap ops).br).openPages
  rw [foldl_closePage_openPages]
  exact mem_erased_after_foldl p _ _ hnd hp

/-- Witness for C5 (amended): in the trivial capacity-1 run, the single
`init`-created page 0 is registered and is closed by `destroy()`. -/
theorem c5_witness :
    0 ∈ (PoolSys.run 1 []).pool.pages ∧
      0 ∉ ((PoolSys.run 1 []).pool.destroy (PoolSys.run 1 []).br).2.openPages :=
  ⟨by decide, c5_destroy_closes_registered 1 [] 0 (by decide)⟩

/-- Counterexample for C5 as stated: acquire page 0 from a capacity-1
pool, release it with a failing reset (creating replacement page 1), then
`destroy()`.  The replacement — a live context the pool produced — is
still open after `destroy()` because it was never added to `this.pages`,
so `destroy()` does *not* leave no rendering context open. -/
theorem c5_counterexample :
    1 ∈ leakTraceFinal.br.openPages ∧ leakTraceFinal.br.openPages = [1] := by
  decide

/-- Claim C9: `PagePool.release` performs no ownership or membership check:
starting from a capacity-1 pool, acquiring page 0 and then releasing it
twice leaves the available list holding page 0 twice, and two subsequent
`acquire()` calls both return page 0 — exclusivity is broken with no error
raised. -/
theorem c9_double_release_breaks_exclusivity :
    doubleReleasePool.available = [0, 0] ∧
      doubleReleasePool.acquire.map Prod.fst = some 0 ∧
      (doubleReleasePool.acquire.bind (fun pp => pp.2.acquire)).map Prod.fst
        = some 0 := by
  decide

/-- Claim C6: in directory mode the set of documents processed is exactly
the files whose names match `slide_<digits>.html`, and they are composed
in ascending order of the embedded number parsed as an integer — numeric
order, not lexicographic string order, so `slide_9.html` (key 9) precedes
`slide_10.html` (key 10), as the concrete listing shows. -/
theorem c6_selection_and_numeric_order (files : List String) :
    (∀ f, f ∈ selectSlideFiles files ↔ f ∈ files ∧ matchesSlidePattern f = true) ∧
      List.Sorted slideKeyLe (selectSlideFiles files) ∧
      slideKey "slide_9.html" = 9 ∧ slideKey "slide_10.html" = 10 ∧
      selectSlideFiles ["slide_10.html", "slide_9.html", "notes.txt"]
        = ["slide_9.html", "slide_10.html"] := by
  refine ⟨?_, ?_, by decide, by decide, by decide⟩
  · intro f
    rw [selectSlideFiles,
      (List.perm_insertionSort slideKeyLe (files.filter matchesSlidePattern)).mem_iff,
      List.mem_filter]
  · exact List.sorted_insertionSort slideKeyLe (files.filter matchesSlidePattern)

/-- Claim C7: the readiness probe is never fatal.  Whenever navigation
succeeded, `waitForSlideReady` returns normally for every document —
whether the readiness condition is met within the soft timeout or the
soft timeout expires — the fixed settle delay still runs, a warning is
logged exactly on probe timeout, and the polled predicate is precisely
the claimed condition (load complete, all images complete, fonts not
loading, slide container or body present). -/
theorem c7_probe_never_fatal (doc : Nat → DocSnapshot) :
    (∃ r, waitForSlideReady (.ok ()) doc = .ok r ∧
        r.settleDelayMs = SETTLE_DELAY_MS ∧
        (r.warnedTimeout = true ↔ probeSucceeds doc = false)) ∧
      (∀ d, slideReadyCheck d = true ↔ readyConditionSpec d) := by
  constructor
  · by_cases hp : probeSucceeds doc = true
    · refine ⟨{ warnedTimeout := false, settleDelayMs := SETTLE_DELAY_MS }, ?_, rfl, ?_⟩
      · simp [waitForSlideReady, hp]
      · simp [hp]
    · refine ⟨{ warnedTimeout := true, settleDelayMs := SETTLE_DELAY_MS }, ?_, rfl, ?_⟩
      · simp [waitForSlideReady, hp]
      · simp [Bool.not_eq_true] at hp
        simp [hp]
  · intro d
    obtain ⟨rs, imgs, fl, hc, hb⟩ := d
    simp only [slideReadyCheck, readyConditionSpec]
    cases rs <;> cases fl <;> cases hc <;> cases hb <;>
      simp [List.all_eq_true]

/-- Claim C10: for every input path that does not exist on the
filesystem, `generatePDF` takes the legacy single-file branch (the
directory pipeline requires the path to exist *and* be a directory); that
branch reports the HTML file as not found and exits with status 1 without
ever launching a browser. -/
theorem c10_missing_input_single_file (fsys : FileSystem) (input : String)
    (h : fsys input = none) :
    generatePDF fsys input =
      { branch := .singleFileMode, errorNotFound := true,
        exitCode := some 1, browserLaunched := false } := by
  have h1 : existsSync fsys input = false := by simp [existsSync, h]
  rw [generatePDF, h1]
  simp [generatePDFFromSingleFile, h1]

/-- Witness for C10: the empty filesystem and a missing input path. -/
theorem c10_witness :
    generatePDF emptyFS "missing.html" =
      { branch := .singleFileMode, errorNotFound := true,
        exitCode := some 1, browserLaunched := false } :=
  c10_missing_input_single_file emptyFS "missing.html" rfl

/-! ## Path-rewriting lemmas -/

theorem charsStart_eq_true_iff :
    ∀ (p u : List Char), charsStart p u = true ↔ u.take p.length = p := by
  intro p
  induction p with
  | nil => intro u; simp [charsStart]
  | cons c cs ih =>
    intro u
    cases u with
    | nil => simp [charsStart]
    | cons d ds =>
      simp only [charsStart, Bool.and_eq_true, beq_iff_eq, ih,
        List.length_cons, List.take_succ_cons, List.cons.injEq]
      constructor
      · rintro ⟨h1, h2⟩; exact ⟨h1.symm, h2⟩
      · rintro ⟨h1, h2⟩; exact ⟨h1.symm, h2⟩

theorem url_data_ne_nil (url : String) (hne : url ≠ "") : url.data ≠ [] := by
  intro h
  exact hne (String.ext h)

theorem c8_css_changed (cssDir url : String) (hne : url ≠ "")
    (hq : Char.ofNat 39 ∉ url.data) :
    "url(" ++ squote ++ "file://" ++ pathResolve cssDir url ++ squote ++ ")"
      ≠ cssMatch url := by
  intro heq
  have hd := congrArg String.data heq
  simp only [cssMatch, String.data_append] at hd
  have hs : squote.data = [Char.ofNat 39] := rfl
  rw [hs] at hd
  simp only [List.append_assoc, List.cons_append, List.nil_append,
    List.cons.injEq, true_and] at hd
  have hne2 : url.data ≠ [] := url_data_ne_nil url hne
  have hlen : 1 ≤ url.data.length := List.length_pos.mpr hne2
  have htake := congrArg (List.take 1) hd
  rw [List.take_append_of_le_length hlen] at htake
  simp only [List.take_succ_cons, List.take_zero] at htake
  have hmem : Char.ofNat 39 ∈ url.data := by
    have hm1 : Char.ofNat 39 ∈ url.data.take 1 := by
      rw [← htake]
      exact List.mem_singleton_self _
    exact List.take_subset 1 url.data hm1
  exact hq hmem

theorem c8_src_changed (docDir url : String) (hskip : skipRef url = false) :
    "src=" ++ dquote ++ "file://" ++ pathResolve docDir url ++ dquote
      ≠ srcMatch url := by
  intro heq
  have hd := congrArg String.data heq
  simp only [srcMatch, String.data_append] at hd
  have hqd : dquote.data = [Char.ofNat 34] := rfl
  rw [hqd] at hd
  simp only [List.append_assoc, List.cons_append, List.nil_append,
    List.cons.injEq, true_and] at hd
  have hl5 : 5 ≤ url.data.length := by
    have hlen := congrArg List.length hd
    simp only [List.length_cons, List.length_append, List.length_singleton] at hlen
    omega
  have htake := congrArg (List.take 5) hd
  rw [List.take_append_of_le_length hl5] at htake
  simp only [List.take_succ_cons, List.take_zero] at htake
  have hcs : charsStart ("file:".toList) url.data = true := by
    rw [charsStart_eq_true_iff]
    rw [show "file:".toList = ['f', 'i', 'l', 'e', ':'] from rfl]
    exact htake.symm
  have hsw : strStarts url "file:" = true := hcs
  simp [skipRef, hsw] at hskip

/-- Claim C8 (amended): each replacer leaves a captured reference (which
the regex guarantees is non-empty and free of single-quote characters)
unchanged exactly when it begins with one of the plain prefixes `data:`,
`http`, or `file:` — a prefix test, so relative names that merely begin
with the characters `http` are also skipped — and otherwise replaces it
with a `file://` URL formed by resolving it against the directory of the
containing file: the stylesheet's directory for CSS references, the
document's directory for src references. -/
theorem c8_rewrite_amended (cssDir docDir url : String) (hne : url ≠ "")
    (hq : Char.ofNat 39 ∉ url.data) :
    (rewriteCssUrl cssDir (cssMatch url) url = cssMatch url ↔ skipRef url = true) ∧
      (rewriteSrc docDir (srcMatch url) url = srcMatch url ↔ skipRef url = true) ∧
      (skipRef url = false →
        rewriteCssUrl cssDir (cssMatch url) url
            = "url(" ++ squote ++ "file://" ++ pathResolve cssDir url ++ squote ++ ")" ∧
        rewriteSrc docDir (srcMatch url) url
            = "src=" ++ dquote ++ "file://" ++ pathResolve docDir url ++ dquote) := by
  refine ⟨⟨?_, ?_⟩, ⟨?_, ?_⟩, ?_⟩
  · intro hunch
    by_contra hskip
    rw [Bool.not_eq_true] at hskip
    rw [rewriteCssUrl, hskip] at hunch
    exact c8_css_changed cssDir url hne hq (by simpa using hunch)
  · intro hskip
    rw [rewriteCssUrl, hskip]
    rfl
  · intro hunch
    by_contra hskip
    rw [Bool.not_eq_true] at hskip
    rw [rewriteSrc, hskip] at hunch
    exact c8_src_changed docDir url hskip (by simpa using hunch)
  · intro hskip
    rw [rewriteSrc, hskip]
    rfl
  · intro hskip
    rw [rewriteCssUrl, rewriteSrc, hskip]
    exact ⟨rfl, rfl⟩

/-- Counterexample for C8 as stated: the skip test is a plain prefix
check for the characters `http`, not an absolute-scheme test, so the
relative reference `httpdocs/logo.png` is left unchanged by both
replacers even though it does not begin with a `data:` payload or an
absolute http/file scheme — refuting the claimed "unchanged exactly
when". -/
theorem c8_counterexample :
    rewriteCssUrl "/base" (cssMatch "httpdocs/logo.png") "httpdocs/logo.png"
        = cssMatch "httpdocs/logo.png" ∧
      rewriteSrc "/base" (srcMatch "httpdocs/logo.png") "httpdocs/logo.png"
        = srcMatch "httpdocs/logo.png" ∧
      isAbsoluteOrDataRef "httpdocs/logo.png" = false := by
  refine ⟨?_, ?_, by decide⟩
  · rw [rewriteCssUrl, show skipRef "httpdocs/logo.png" = true from by decide]
    exact if_pos rfl
  · rw [rewriteSrc, show skipRef "httpdocs/logo.png" = true from by decide]
    exact if_pos rfl

/-- Witness for C8 (amended): a plain relative reference is rewritten by
both replacers into a `file://` URL under the containing directory. -/
theorem c8_witness :
    rewriteCssUrl "/proj/theme" (cssMatch "img/x.png") "img/x.png"
        = "url(" ++ squote ++ "file://" ++ "/proj/theme/img/x.png" ++ squote ++ ")" ∧
      rewriteSrc "/proj/slides" (srcMatch "img/x.png") "img/x.png"
        = "src=" ++ dquote ++ "file://" ++ "/proj/slides/img/x.png" ++ dquote := by
  have h := (c8_rewrite_amended "/proj/theme" "/proj/slides" "img/x.png"
    (by decide) (by decide)).2.2 (by decide)
  constructor
  · rw [h.1, show pathResolve "/proj/theme" "img/x.png" = "/proj/theme/img/x.png"
      from by decide]
  · rw [h.2, show pathResolve "/proj/slides" "img/x.png" = "/proj/slides/img/x.png"
      from by decide]
